import Mathlib

/-!
Verification of the image-cache subsystem of EpisodeAlerts (the
`ImageCacheService` class, `src/unnamed/part_001`).

Shallow embedding conventions:

* The blob store (an `expo-file-system` directory) is modelled as
  `Option (List (String × Nat))`: `none` means the directory is absent,
  `some files` lists the directory entries as (file name, size in bytes)
  pairs.  `getInfoAsync` on a present entry reports existence, its size
  and its uri (the queried path); on a missing path it reports
  `exists = false` without throwing.  `downloadAsync url path` writes an
  entry into the directory (it throws when the directory is absent or on a
  network error).  `deleteAsync` removes the entry at a path.
* The settings store (`AsyncStorage`) is the single value kept under
  `IMAGE_CACHE_ENABLED_KEY`, modelled as `Option String`.
* Failures of the collaborators are injected through explicit oracle
  records (`TrimOracle`, `ClearOracle`, `FetchOracle`): each flag tells
  whether the corresponding awaited call throws.  A thrown JS exception is
  an `Except.error` carrying the mutated state at the throw point (JS
  exceptions do not roll back field assignments already performed); a
  `try`/`catch` of the source is an explicit `match` on that `Except`.
* `Math.random()`-based synthetic modification times (`trimCache`) are an
  oracle `modTime : String → Int` giving the value drawn for each file.
* JS numbers are embedded as `Nat`/`Int`/`ℚ`: sizes are `Nat`, the local
  running total of `trimCache` is `Int` (it may go below zero), and the
  float constant `MAX_CACHE_SIZE * 0.7` is the exact rational 7/10 of the
  max, so `currentSize <= targetSize` is `10 * currentSize ≤ 7 * max`.
  `getCacheSizeInMB` is computed in `ℚ` with `round` (JS `Math.round`
  rounds half away from zero on the nonnegative values that occur here).
* `url.split('/')` is embedded structurally on the character list of the
  string (`String.splitOn` exists in Lean but does not reduce in the
  kernel); the regex replacement keeps `[a-zA-Z0-9.]` and maps every
  other character to an underscore, as the source does.
-/

namespace ImageCache

/-- `FileSystem.cacheDirectory`, an opaque platform-supplied prefix. -/
def cacheDirectory : String := "cache://"

/-- Source line 6: the blob-store directory for images. -/
def IMAGE_CACHE_DIR : String := cacheDirectory ++ "images/"

/-- Source line 7: `100 * 1024 * 1024` bytes. -/
def MAX_CACHE_SIZE : Nat := 100 * 1024 * 1024

/-- A directory entry: file name and size in bytes. -/
abbrev DirEntry := String × Nat

/-- Source lines 9-13: the record built for each file during `trimCache`. -/
structure CacheFileInfo where
  uri : String
  size : Nat
  modificationTime : Int
deriving DecidableEq, Repr

/-- The mutable state of the `ImageCacheService` singleton together with
the state of its two collaborators: the blob-store directory and the
settings value stored under `IMAGE_CACHE_ENABLED_KEY`. -/
structure CacheState where
  dir : Option (List DirEntry)
  cacheSize : Nat
  isEnabled : Bool
  stored : Option String
deriving DecidableEq, Repr

/-- Failure/randomness oracle for one `trimCache` run. -/
structure TrimOracle where
  readDirFails : Bool
  modTime : String → Int
  del : String → Bool
  calcStatFails : Bool

/-- Failure oracle for one `clearCache` run. -/
structure ClearOracle where
  infoFails : Bool
  delFails : Bool
  mkdirFails : Bool

/-- Total size of the entries of a directory listing. -/
def sumSizes (l : List DirEntry) : Nat := (l.map Prod.snd).sum

/-- Source lines 100-105, `getFilenameFromUrl`: split the URL on `/`,
take the last part and replace every character outside `[a-zA-Z0-9.]`
with `_`.  The split is embedded structurally on the character list. -/
def splitOnSlash : List Char → List (List Char)
  | [] => [[]]
  | c :: t =>
    let r := splitOnSlash t
    if c = '/' then [] :: r else (c :: r.headD []) :: r.tail

def getFilenameFromUrl (url : String) : String :=
  let parts := splitOnSlash url.data
  let lastPart := parts.getLastD []
  String.mk (lastPart.map (fun c => if c.isAlphanum || c = '.' then c else '_'))

/-- Source lines 187-202, `calculateCacheSize`, body inside the `try`:
stat the cache directory (throws when `statFails`); a present directory
reports its total content size, an absent one resets the counter to 0. -/
def calcBody (statFails : Bool) (s : CacheState) : Except CacheState (Nat × CacheState) :=
  if statFails then .error s
  else
    match s.dir with
    | some files => .ok (sumSizes files, { s with cacheSize := sumSizes files })
    | none => .ok (0, { s with cacheSize := 0 })

/-- Source lines 187-202, `calculateCacheSize` with its `catch`: on an
error return 0 and leave `cacheSize` untouched. -/
def calculateCacheSize (statFails : Bool) (s : CacheState) : Nat × CacheState :=
  match calcBody statFails s with
  | .ok r => r
  | .error s' => (0, s')

/-- Source lines 204-206, `getCacheSizeInMB`:
`Math.round((cacheSize / 1024 / 1024) * 100) / 100`. -/
def getCacheSizeInMB (s : CacheState) : ℚ :=
  ((round (((s.cacheSize : ℚ) / 1024 / 1024) * 100) : ℤ) : ℚ) / 100

/-- The `CacheFileInfo` built for a directory entry in the loop at source
lines 132-147: uri is the queried path, the modification time is the
synthetic random value drawn for this file. -/
def mkFileInfo (tro : TrimOracle) (p : DirEntry) : CacheFileInfo :=
  { uri := IMAGE_CACHE_DIR ++ p.1, size := p.2, modificationTime := tro.modTime p.1 }

/-- Source line 150: `fileInfos.sort((a, b) => a.modificationTime - b.modificationTime)`,
an ascending sort on the synthetic modification time. -/
def sortByModTime (l : List CacheFileInfo) : List CacheFileInfo :=
  List.insertionSort (fun a b => a.modificationTime ≤ b.modificationTime) l

/-- Source lines 156-163, the deletion loop of `trimCache`: walk the
sorted infos, break once the running total is at or below
`MAX * 0.7` (exactly `10 * c ≤ 7 * M`), otherwise `deleteAsync` the file
(throwing when the delete oracle says so — the loop has no `try` of its
own, so the exception propagates) and subtract its size. -/
def deleteLoop (del : String → Bool) (M : Nat) :
    List CacheFileInfo → Int → List DirEntry → Except (List DirEntry) (List DirEntry)
  | [], _, files => .ok files
  | fi :: rest, c, files =>
    if 10 * c ≤ 7 * (M : Int) then .ok files
    else if del fi.uri then .error files
    else deleteLoop del M rest (c - (fi.size : Int))
      (files.filter (fun p => !(IMAGE_CACHE_DIR ++ p.1 == fi.uri)))

/-- Source lines 120-170, `trimCache` body inside the `try`, with the max
size kept as a parameter (the source fixes it to `MAX_CACHE_SIZE`):
list the directory (throws when absent or when the oracle says so),
return early on an empty listing, build the infos, sort them by the
synthetic modification time, run the deletion loop from the tracked
`cacheSize`, then resync `cacheSize` via `calculateCacheSize`. -/
def trimBody (M : Nat) (tro : TrimOracle) (s : CacheState) : Except CacheState CacheState :=
  if tro.readDirFails then .error s
  else
    match s.dir with
    | none => .error s
    | some files =>
      if files.length = 0 then .ok s
      else
        let sorted := sortByModTime (files.map (mkFileInfo tro))
        match deleteLoop tro.del M sorted (s.cacheSize : Int) files with
        | .error files2 => .error { s with dir := some files2 }
        | .ok files2 =>
          .ok (calculateCacheSize tro.calcStatFails { s with dir := some files2 }).2

/-- `trimCache` with its outer `catch` (source lines 167-169): any
exception is logged and swallowed, the state at the throw point stands. -/
def trimCacheWith (M : Nat) (tro : TrimOracle) (s : CacheState) : CacheState :=
  match trimBody M tro s with
  | .ok s' => s'
  | .error s' => s'

def trimCache : TrimOracle → CacheState → CacheState := trimCacheWith MAX_CACHE_SIZE

/-- Source lines 107-118, `updateCacheSize` with the max size as a
parameter: add the new file size to the tracked total and trim when the
total exceeds the max.  (Its own `try`/`catch` is dead code: neither the
addition nor `trimCache` throws.) -/
def updateCacheSizeWith (M : Nat) (tro : TrimOracle) (newFileSize : Nat) (s : CacheState) : CacheState :=
  let s1 := { s with cacheSize := s.cacheSize + newFileSize }
  if M < s1.cacheSize then trimCacheWith M tro s1 else s1

def updateCacheSize : TrimOracle → Nat → CacheState → CacheState :=
  updateCacheSizeWith MAX_CACHE_SIZE

/-- Source lines 172-185, `clearCache` body inside the `try`: stat the
directory (throws when `infoFails`); when it exists, delete it
(`delFails` throws) and recreate it (`mkdirFails` throws after the
deletion already happened); finally reset `cacheSize` to 0. -/
def clearBody (o : ClearOracle) (s : CacheState) : Except CacheState CacheState :=
  if o.infoFails then .error s
  else
    match s.dir with
    | some _ =>
      if o.delFails then .error s
      else
        let s1 := { s with dir := none }
        if o.mkdirFails then .error s1
        else .ok { s1 with dir := some ([] : List DirEntry), cacheSize := 0 }
    | none => .ok { s with cacheSize := 0 }

/-- Source lines 172-185, `clearCache` with its `catch`. -/
def clearCache (o : ClearOracle) (s : CacheState) : CacheState :=
  match clearBody o s with
  | .ok s' => s'
  | .error s' => s'

/-- Source lines 53-60, `setEnabled`: set the field, persist the flag
(`AsyncStorage.setItem`, which is NOT wrapped in any `try`/`catch`, so a
write failure escapes to the caller as `Except.error`), and clear the
cache when disabling. -/
def setEnabled (enabled : Bool) (setItemFails : Bool) (o : ClearOracle) (s : CacheState) :
    Except CacheState CacheState :=
  let s1 := { s with isEnabled := enabled }
  if setItemFails then .error s1
  else
    let s2 := { s1 with stored := some (if enabled then "true" else "false") }
    if enabled = false then .ok (clearCache o s2) else .ok s2

/-- Source lines 62-64, `isImageCacheEnabled`. -/
def isImageCacheEnabled (s : CacheState) : Bool := s.isEnabled

/-- Source lines 43-51, `loadSettings` body inside the `try`: read the
stored flag (throws when `getFails`), enable unless the stored value is
the string `"false"`, then recompute the cache size. -/
def loadSettingsBody (getFails calcStatFails : Bool) (s : CacheState) : Except CacheState CacheState :=
  if getFails then .error s
  else
    let s1 := { s with isEnabled := !(s.stored == some "false") }
    .ok (calculateCacheSize calcStatFails s1).2

/-- Source lines 43-51, `loadSettings` with its `catch`. -/
def loadSettings (getFails calcStatFails : Bool) (s : CacheState) : CacheState :=
  match loadSettingsBody getFails calcStatFails s with
  | .ok s' => s'
  | .error s' => s'

/-- Failure/size oracle for one `getCachedImageUri` run. -/
structure FetchOracle where
  infoFails : Bool
  downloadFails : Bool
  statFails : Bool
  remoteSize : Nat
  trim : TrimOracle

/-- The state and operation counters threaded through one
`getCachedImageUri` run: how many `downloadAsync` and `getInfoAsync`
calls were attempted. -/
structure FetchTrace where
  state : CacheState
  downloads : Nat
  infoChecks : Nat
deriving DecidableEq, Repr

/-- What `getCachedImageUri` hands back to its caller. -/
structure ResolveResult where
  result : String
  state : CacheState
  downloads : Nat
  infoChecks : Nat
deriving DecidableEq, Repr

/-- `files.find?` keyed lookup used to model `getInfoAsync(filePath).exists`. -/
def lookupFile (files : List DirEntry) (name : String) : Option Nat :=
  (files.find? (fun p => p.1 == name)).map Prod.snd

/-- Source lines 71-97, the body of `getCachedImageUri` inside the `try`:
derive the file name and path, stat the path (throws on `infoFails`); on
a hit return the existing uri; on a miss download (throws on
`downloadFails` or when the directory is absent), stat the written file
(throws on `statFails`), record the size through `updateCacheSize` only
when the reported size is nonzero (JS truthiness of `fileInfo.size`),
and return the downloaded uri. -/
def getCachedImageUriBody (o : FetchOracle) (s : CacheState) (url : String) :
    Except FetchTrace (String × FetchTrace) :=
  let filename := getFilenameFromUrl url
  let filePath := IMAGE_CACHE_DIR ++ filename
  if o.infoFails then .error ⟨s, 0, 1⟩
  else
    match s.dir with
    | some files =>
      match lookupFile files filename with
      | some _ => .ok (filePath, ⟨s, 0, 1⟩)
      | none =>
        if o.downloadFails then .error ⟨s, 1, 1⟩
        else
          let s1 := { s with dir := some (files ++ [(filename, o.remoteSize)]) }
          if o.statFails then .error ⟨s1, 1, 2⟩
          else if o.remoteSize ≠ 0 then
            .ok (filePath, ⟨updateCacheSize o.trim o.remoteSize s1, 1, 2⟩)
          else .ok (filePath, ⟨s1, 1, 2⟩)
    | none => .error ⟨s, 1, 1⟩

/-- Source lines 66-98, `getCachedImageUri`: pass the url through when
caching is disabled or the url is empty (source lines 67-69, outside the
`try`), otherwise run the body and catch any failure by falling back to
the original url. -/
def getCachedImageUri (o : FetchOracle) (s : CacheState) (url : String) : ResolveResult :=
  if s.isEnabled = false ∨ url = "" then ⟨url, s, 0, 0⟩
  else
    match getCachedImageUriBody o s url with
    | .ok (res, t) => ⟨res, t.state, t.downloads, t.infoChecks⟩
    | .error t => ⟨url, t.state, t.downloads, t.infoChecks⟩

/-! Abbreviations used to state properties of `trimCache`'s deletion
pass: the (path, size) key of a directory entry and of a built file
info, and the total size of a prefix of the sorted info list. -/

/-- The (full path, size) view of a directory entry. -/
def entryKey (p : DirEntry) : String × Nat := (IMAGE_CACHE_DIR ++ p.1, p.2)

/-- The (uri, size) view of a `CacheFileInfo`. -/
def infoKey (fi : CacheFileInfo) : String × Nat := (fi.uri, fi.size)

/-- Total size (as `Int`) of the first `j` infos of `l`. -/
def prefixSizes (l : List CacheFileInfo) (j : Nat) : Int :=
  ((l.take j).map (fun fi => (fi.size : Int))).sum

/-- Total size (as `Int`) of a list of infos. -/
def sizesInt (l : List CacheFileInfo) : Int :=
  (l.map (fun fi => (fi.size : Int))).sum

/-- A state whose tracked counter is zero reports 0 MB. -/
theorem getCacheSizeInMB_zero (s : CacheState) (h : s.cacheSize = 0) :
    getCacheSizeInMB s = 0 := by
  simp [getCacheSizeInMB, h]

/-- C4: when caching is disabled or the url is empty, `getCachedImageUri`
returns the url unchanged, performs no blob-store operation (zero
`getInfoAsync` and zero `downloadAsync` attempts) and leaves the state —
in particular `cacheSize` and the directory — untouched; in particular
`resolve("")` returns `""`. -/
theorem resolve_passthrough (o : FetchOracle) (s : CacheState) (url : String)
    (h : s.isEnabled = false ∨ url = "") :
    getCachedImageUri o s url = ⟨url, s, 0, 0⟩ := by
  unfold getCachedImageUri
  rw [if_pos h]

/-- C4 witness: `resolve("")` on a concrete enabled state passes the
empty url through with no store operation. -/
theorem resolve_passthrough_witness :
    getCachedImageUri ⟨false, false, false, 5, ⟨false, fun _ => 0, fun _ => false, false⟩⟩
        ⟨some [("x.png", 7)], 7, true, none⟩ ""
      = ⟨"", ⟨some [("x.png", 7)], 7, true, none⟩, 0, 0⟩ :=
  resolve_passthrough _ _ _ (Or.inr rfl)

/-- C10: when the stat of the cache directory fails,
`calculateCacheSize` returns 0 yet leaves the whole state — in
particular the in-memory `cacheSize` — unchanged, so a subsequent
`getCacheSizeInMB` still reports the previous tracked value. -/
theorem calc_statfail_divergence (s : CacheState) :
    calculateCacheSize true s = (0, s) ∧
    getCacheSizeInMB (calculateCacheSize true s).2 = getCacheSizeInMB s := by
  exact ⟨rfl, rfl⟩

/-- C3 counterexample: from a concrete state in which the blob-store
directory is absent (and no collaborator fails), `clearCache` leaves the
directory absent — refuting the claim that after every `clear()` the
directory exists. -/
theorem clear_absent_dir_counterexample :
    (clearCache ⟨false, false, false⟩ ⟨none, 5, true, none⟩).dir = none ∧
    (clearCache ⟨false, false, false⟩ ⟨none, 5, true, none⟩).cacheSize = 0 :=
  ⟨rfl, rfl⟩

/-- C3 (amended): absent collaborator failures, after `clearCache` the
tracked size is 0 and `getCacheSizeInMB` reports 0; a directory that
existed is recreated empty, while an absent directory stays absent
(clear does not create it); and clearing again is a no-op. -/
theorem clearCache_spec (o : ClearOracle) (s : CacheState)
    (h1 : o.infoFails = false) (h2 : o.delFails = false) (h3 : o.mkdirFails = false) :
    (clearCache o s).cacheSize = 0 ∧
    getCacheSizeInMB (clearCache o s) = 0 ∧
    (∀ files, s.dir = some files → (clearCache o s).dir = some []) ∧
    (s.dir = none → (clearCache o s).dir = none) ∧
    clearCache o (clearCache o s) = clearCache o s := by
  obtain ⟨d, cs, en, st⟩ := s
  have hz : ∀ t : CacheState, t.cacheSize = 0 → getCacheSizeInMB t = 0 := getCacheSizeInMB_zero
  cases d <;>
    simp [clearCache, clearBody, h1, h2, h3] <;>
    exact hz _ rfl

/-- C3 witness: clearing a concrete two-entry store empties it, zeroes
both size reports, and a second clear changes nothing. -/
theorem clearCache_spec_witness :
    (clearCache ⟨false, false, false⟩ ⟨some [("a.png", 3), ("b.png", 4)], 7, true, none⟩).cacheSize = 0 ∧
    getCacheSizeInMB (clearCache ⟨false, false, false⟩ ⟨some [("a.png", 3), ("b.png", 4)], 7, true, none⟩) = 0 ∧
    (∀ files, (some [("a.png", 3), ("b.png", 4)] : Option (List DirEntry)) = some files →
      (clearCache ⟨false, false, false⟩ ⟨some [("a.png", 3), ("b.png", 4)], 7, true, none⟩).dir = some []) ∧
    ((some [("a.png", 3), ("b.png", 4)] : Option (List DirEntry)) = none →
      (clearCache ⟨false, false, false⟩ ⟨some [("a.png", 3), ("b.png", 4)], 7, true, none⟩).dir = none) ∧
    clearCache ⟨false, false, false⟩
        (clearCache ⟨false, false, false⟩ ⟨some [("a.png", 3), ("b.png", 4)], 7, true, none⟩)
      = clearCache ⟨false, false, false⟩ ⟨some [("a.png", 3), ("b.png", 4)], 7, true, none⟩ :=
  clearCache_spec ⟨false, false, false⟩ ⟨some [("a.png", 3), ("b.png", 4)], 7, true, none⟩ rfl rfl rfl

/-- C8 counterexample: `setEnabled` is not wrapped in any `try`/`catch`,
so at a concrete state a failing settings write (`AsyncStorage.setItem`)
propagates out of the public operation as an error — refuting the claim
that every public operation recovers locally. -/
theorem setEnabled_write_failure_counterexample :
    setEnabled false true ⟨false, false, false⟩ ⟨some [("x.png", 7)], 7, true, some "true"⟩
      = Except.error ⟨some [("x.png", 7)], 7, false, some "true"⟩ :=
  rfl

/-- C8 (amended): every public operation except `setEnabled` recovers
locally — any error thrown inside the body of `getCachedImageUri`,
`clearCache`, `calculateCacheSize` or `loadSettings` is caught and
mapped to its documented fallback (the raw url, the state at the throw
point, a 0 byte count) — while `setEnabled` propagates a settings-write
failure to its caller. -/
theorem error_containment (fo : FetchOracle) (co : ClearOracle) (gf cf sf : Bool) (b : Bool)
    (s : CacheState) (url : String) :
    (∀ t, s.isEnabled = true → url ≠ "" → getCachedImageUriBody fo s url = .error t →
      getCachedImageUri fo s url = ⟨url, t.state, t.downloads, t.infoChecks⟩) ∧
    (∀ s', clearBody co s = .error s' → clearCache co s = s') ∧
    (∀ s', calcBody sf s = .error s' → calculateCacheSize sf s = (0, s')) ∧
    (∀ s', loadSettingsBody gf cf s = .error s' → loadSettings gf cf s = s') ∧
    setEnabled b true co s = Except.error { s with isEnabled := b } := by
  refine ⟨?_, ?_, ?_, ?_, rfl⟩
  · intro t hen hurl hb
    unfold getCachedImageUri
    rw [if_neg (by simp [hen, hurl]), hb]
  · intro s' hb
    unfold clearCache
    rw [hb]
  · intro s' hb
    unfold calculateCacheSize
    rw [hb]
  · intro s' hb
    unfold loadSettings
    rw [hb]

/-- C8 witness: at concrete all-failing collaborators, resolve falls
back to the url, clear and the size recomputation return without an
error, and `setEnabled` surfaces the settings-write error. -/
theorem error_containment_witness :
    getCachedImageUri ⟨true, false, false, 0, ⟨false, fun _ => 0, fun _ => false, false⟩⟩
        ⟨some [], 3, true, none⟩ "http://a/b.png"
      = ⟨"http://a/b.png", ⟨some [], 3, true, none⟩, 0, 1⟩ ∧
    clearCache ⟨true, false, false⟩ ⟨some [], 3, true, none⟩ = ⟨some [], 3, true, none⟩ ∧
    calculateCacheSize true ⟨some [], 3, true, none⟩ = (0, ⟨some [], 3, true, none⟩) ∧
    loadSettings true false ⟨some [], 3, true, none⟩ = ⟨some [], 3, true, none⟩ ∧
    setEnabled false true ⟨true, false, false⟩ ⟨some [], 3, true, none⟩
      = Except.error ⟨some [], 3, false, none⟩ := by
  have T := error_containment ⟨true, false, false, 0, ⟨false, fun _ => 0, fun _ => false, false⟩⟩
    ⟨true, false, false⟩ true false true false ⟨some [], 3, true, none⟩ "http://a/b.png"
  exact ⟨T.1 ⟨⟨some [], 3, true, none⟩, 0, 1⟩ rfl (by decide) rfl,
    T.2.1 ⟨some [], 3, true, none⟩ rfl,
    T.2.2.1 ⟨some [], 3, true, none⟩ rfl,
    T.2.2.2.1 ⟨some [], 3, true, none⟩ rfl,
    T.2.2.2.2⟩

/-- C9: with a working settings write and blob store, `setEnabled b`
persists the string form of `b`, makes `isImageCacheEnabled` report `b`,
on `b = false` performs the full clear (the store ends with no entries
and a zero tracked size), and calling it again with the same value
returns the very same state. -/
theorem setEnabled_spec (b : Bool) (o : ClearOracle) (s : CacheState)
    (h1 : o.infoFails = false) (h2 : o.delFails = false) (h3 : o.mkdirFails = false) :
    ∃ s', setEnabled b false o s = .ok s' ∧
      s'.stored = some (if b then "true" else "false") ∧
      isImageCacheEnabled s' = b ∧
      (b = false → s'.cacheSize = 0 ∧ (s'.dir = none ∨ s'.dir = some [])) ∧
      setEnabled b false o s' = .ok s' := by
  obtain ⟨d, cs, en, st⟩ := s
  cases b
  · cases d <;> simp [setEnabled, isImageCacheEnabled, clearCache, clearBody, h1, h2, h3]
  · simp [setEnabled, isImageCacheEnabled]

/-- C9 witness: disabling on a concrete populated, enabled state
persists `"false"`, clears the store and is a no-op when repeated. -/
theorem setEnabled_spec_witness :
    ∃ s', setEnabled false false ⟨false, false, false⟩
        ⟨some [("x.png", 7)], 7, true, some "true"⟩ = .ok s' ∧
      s'.stored = some (if false then "true" else "false") ∧
      isImageCacheEnabled s' = false ∧
      (false = false → s'.cacheSize = 0 ∧ (s'.dir = none ∨ s'.dir = some [])) ∧
      setEnabled false false ⟨false, false, false⟩ s' = .ok s' :=
  setEnabled_spec false ⟨false, false, false⟩ ⟨some [("x.png", 7)], 7, true, some "true"⟩ rfl rfl rfl

/-- C5: with caching enabled and a non-empty url, whenever a step of the
miss path throws — the existence check, the download (including a
download into an absent directory), or the post-download stat —
`getCachedImageUri` returns the original remote url and the tracked
`cacheSize` is unchanged (no size is recorded for the failed fetch); no
error reaches the caller, as the whole body sits under the `catch`. -/
theorem resolve_miss_failure (o : FetchOracle) (s : CacheState) (url : String)
    (hen : s.isEnabled = true) (hurl : url ≠ "")
    (hfail : o.infoFails = true
      ∨ (o.infoFails = false ∧ s.dir = none)
      ∨ (∃ files, o.infoFails = false ∧ s.dir = some files ∧
          lookupFile files (getFilenameFromUrl url) = none ∧
          (o.downloadFails = true ∨ (o.downloadFails = false ∧ o.statFails = true)))) :
    (getCachedImageUri o s url).result = url ∧
    (getCachedImageUri o s url).state.cacheSize = s.cacheSize := by
  unfold getCachedImageUri
  rw [if_neg (by simp [hen, hurl])]
  rcases hfail with h | ⟨h, hd⟩ | ⟨files, h, hd, hm, hf⟩
  · unfold getCachedImageUriBody
    rw [if_pos h]
    exact ⟨rfl, rfl⟩
  · unfold getCachedImageUriBody
    rw [if_neg (by simp [h]), hd]
    exact ⟨rfl, rfl⟩
  · unfold getCachedImageUriBody
    rw [if_neg (by simp [h]), hd]
    rcases hf with hdl | ⟨hdl, hst⟩
    · simp [hm, hdl]
    · simp [hm, hdl, hst]

/-- C5 witness: a concrete failing existence check makes resolve fall
back to the remote url without touching the tracked size. -/
theorem resolve_miss_failure_witness :
    (getCachedImageUri ⟨true, false, false, 9, ⟨false, fun _ => 0, fun _ => false, false⟩⟩
        ⟨some [], 3, true, none⟩ "http://a/b.png").result = "http://a/b.png" ∧
    (getCachedImageUri ⟨true, false, false, 9, ⟨false, fun _ => 0, fun _ => false, false⟩⟩
        ⟨some [], 3, true, none⟩ "http://a/b.png").state.cacheSize = 3 :=
  resolve_miss_failure _ _ _ rfl (by decide) (Or.inl rfl)

/-- Appending a fresh entry for a name makes the lookup of that name
find it. -/
theorem lookupFile_append_self (files : List DirEntry) (fn : String) (n : Nat)
    (h : lookupFile files fn = none) :
    lookupFile (files ++ [(fn, n)]) fn = some n := by
  unfold lookupFile at h ⊢
  have h0 : files.find? (fun p => p.1 == fn) = none := by
    cases hf : files.find? (fun p => p.1 == fn) with
    | none => rfl
    | some v => rw [hf] at h; simp at h
  rw [List.find?_append, h0]
  simp [List.find?_cons]

/-- A hit: with caching enabled, a present directory holding the derived
name, and a working existence check, `getCachedImageUri` returns the
cached path with no download and no state change. -/
theorem resolve_hit (o : FetchOracle) (s : CacheState) (url : String) (files : List DirEntry)
    (n : Nat) (hen : s.isEnabled = true) (hurl : url ≠ "") (h1 : o.infoFails = false)
    (hdir : s.dir = some files)
    (hhit : lookupFile files (getFilenameFromUrl url) = some n) :
    getCachedImageUri o s url = ⟨IMAGE_CACHE_DIR ++ getFilenameFromUrl url, s, 0, 1⟩ := by
  unfold getCachedImageUri getCachedImageUriBody
  rw [if_neg (by simp [hen, hurl])]
  rw [if_neg (by simp [h1]), hdir]
  simp [hhit]

/-- A successful miss that stays under the cap: the blob is downloaded
and appended to the directory, its size is added to `cacheSize`, and the
local path is returned. -/
theorem resolve_miss_success (o : FetchOracle) (s : CacheState) (url : String)
    (files : List DirEntry)
    (hen : s.isEnabled = true) (hurl : url ≠ "")
    (h1 : o.infoFails = false) (h2 : o.downloadFails = false) (h3 : o.statFails = false)
    (hdir : s.dir = some files)
    (hmiss : lookupFile files (getFilenameFromUrl url) = none)
    (hcap : s.cacheSize + o.remoteSize ≤ MAX_CACHE_SIZE) :
    getCachedImageUri o s url =
      ⟨IMAGE_CACHE_DIR ++ getFilenameFromUrl url,
        ⟨some (files ++ [(getFilenameFromUrl url, o.remoteSize)]),
          s.cacheSize + o.remoteSize, s.isEnabled, s.stored⟩, 1, 2⟩ := by
  unfold getCachedImageUri getCachedImageUriBody
  rw [if_neg (by simp [hen, hurl])]
  rw [if_neg (by simp [h1]), hdir]
  by_cases hr : o.remoteSize = 0
  · simp [hmiss, h2, h3, hr]
  · simp only [hmiss, h2, h3, hr, Bool.false_eq_true, if_false, ne_eq,
      not_false_iff, if_true]
    simp [updateCacheSize, updateCacheSizeWith, if_neg (by omega : ¬ MAX_CACHE_SIZE < s.cacheSize + o.remoteSize)]

/-- C7 counterexample: a concrete enabled state at the eviction
boundary — one 73400320-byte entry (exactly 70% of the max) with a
consistent tracked size — resolving a missing 40000000-byte url twice
performs TWO downloads, not one: the first call's `recordWrite` pushes
the tracked size over the max, the triggered trim's synthetic random
draw gives the fresh blob the smallest modification time, so trim
evicts it (the directory afterwards holds only the old entry), and the
second call misses and downloads again — refuting that every
enabled double resolution performs exactly one network fetch. -/
theorem resolve_twice_overcap_counterexample :
    (getCachedImageUri
        ⟨false, false, false, 40000000,
          ⟨false, (fun n => if n = "b.png" then 1 else 2), (fun _ => false), false⟩⟩
        ⟨some [("old.png", 73400320)], 73400320, true, none⟩
        "http://a/b.png").downloads = 1 ∧
    (getCachedImageUri
        ⟨false, false, false, 40000000,
          ⟨false, (fun n => if n = "b.png" then 1 else 2), (fun _ => false), false⟩⟩
        ⟨some [("old.png", 73400320)], 73400320, true, none⟩
        "http://a/b.png").state.dir = some [("old.png", 73400320)] ∧
    (getCachedImageUri
        ⟨false, false, false, 40000000,
          ⟨false, (fun n => if n = "b.png" then 1 else 2), (fun _ => false), false⟩⟩
        (getCachedImageUri
          ⟨false, false, false, 40000000,
            ⟨false, (fun n => if n = "b.png" then 1 else 2), (fun _ => false), false⟩⟩
          ⟨some [("old.png", 73400320)], 73400320, true, none⟩
          "http://a/b.png").state
        "http://a/b.png").downloads = 1 := by
  decide

/-- C7 (amended): with caching enabled, a non-empty url whose first
resolution is a miss, working collaborators, and the new blob not
pushing the tracked size over the max (when it does, the triggered
trim's random draw can evict the fresh blob and the second call fetches
again), resolving twice performs exactly one download: the first call
fetches and stores the blob, the second is a hit with zero downloads
returning the same local path and leaving the state — in particular
`cacheSize` — exactly as the first call left it. -/
theorem resolve_twice_single_fetch (o : FetchOracle) (s : CacheState) (url : String)
    (files : List DirEntry)
    (hen : s.isEnabled = true) (hurl : url ≠ "")
    (h1 : o.infoFails = false) (h2 : o.downloadFails = false) (h3 : o.statFails = false)
    (hdir : s.dir = some files)
    (hmiss : lookupFile files (getFilenameFromUrl url) = none)
    (hcap : s.cacheSize + o.remoteSize ≤ MAX_CACHE_SIZE) :
    (getCachedImageUri o s url).downloads = 1 ∧
    (getCachedImageUri o (getCachedImageUri o s url).state url).downloads = 0 ∧
    (getCachedImageUri o (getCachedImageUri o s url).state url).result
      = (getCachedImageUri o s url).result ∧
    (getCachedImageUri o (getCachedImageUri o s url).state url).state
      = (getCachedImageUri o s url).state := by
  have hfst := resolve_miss_success o s url files hen hurl h1 h2 h3 hdir hmiss hcap
  rw [hfst]
  have hsnd := resolve_hit o
    ⟨some (files ++ [(getFilenameFromUrl url, o.remoteSize)]),
      s.cacheSize + o.remoteSize, s.isEnabled, s.stored⟩ url
    (files ++ [(getFilenameFromUrl url, o.remoteSize)]) o.remoteSize hen hurl h1 rfl
    (lookupFile_append_self files (getFilenameFromUrl url) o.remoteSize hmiss)
  rw [hsnd]
  exact ⟨rfl, rfl, rfl, rfl⟩

/-- C7 witness: resolving a concrete url twice against an empty store
(staying under the cap)
downloads once, then hits. -/
theorem resolve_twice_single_fetch_witness :
    (getCachedImageUri ⟨false, false, false, 5, ⟨false, fun _ => 0, fun _ => false, false⟩⟩
        ⟨some [], 0, true, none⟩ "http://a/b.png").downloads = 1 ∧
    (getCachedImageUri ⟨false, false, false, 5, ⟨false, fun _ => 0, fun _ => false, false⟩⟩
      (getCachedImageUri ⟨false, false, false, 5, ⟨false, fun _ => 0, fun _ => false, false⟩⟩
        ⟨some [], 0, true, none⟩ "http://a/b.png").state "http://a/b.png").downloads = 0 ∧
    (getCachedImageUri ⟨false, false, false, 5, ⟨false, fun _ => 0, fun _ => false, false⟩⟩
      (getCachedImageUri ⟨false, false, false, 5, ⟨false, fun _ => 0, fun _ => false, false⟩⟩
        ⟨some [], 0, true, none⟩ "http://a/b.png").state "http://a/b.png").result
      = (getCachedImageUri ⟨false, false, false, 5, ⟨false, fun _ => 0, fun _ => false, false⟩⟩
        ⟨some [], 0, true, none⟩ "http://a/b.png").result ∧
    (getCachedImageUri ⟨false, false, false, 5, ⟨false, fun _ => 0, fun _ => false, false⟩⟩
      (getCachedImageUri ⟨false, false, false, 5, ⟨false, fun _ => 0, fun _ => false, false⟩⟩
        ⟨some [], 0, true, none⟩ "http://a/b.png").state "http://a/b.png").state
      = (getCachedImageUri ⟨false, false, false, 5, ⟨false, fun _ => 0, fun _ => false, false⟩⟩
        ⟨some [], 0, true, none⟩ "http://a/b.png").state :=
  resolve_twice_single_fetch _ _ _ [] rfl (by decide) rfl rfl rfl rfl rfl (by decide)

/-- C2: evaluation of `trimCache` at the scenario of the claim
(max 1000, entries A, B, C of 400 bytes each, tracked size 1200) under a
synthetic random draw that assigns C the smallest modification time
(C ↦ 1, A ↦ 2, B ↦ 3): the code sorts by the random synthetic times, so
it deletes C first and then A, and only B survives — the code does not
order by actual entry age, so C (the newest entry) is not guaranteed to
survive as the claim requires. -/
theorem trim_random_order_deletes_newest :
    trimCacheWith 1000
      ⟨false, (fun n => if n = "A.png" then 2 else if n = "B.png" then 3 else 1),
        (fun _ => false), false⟩
      ⟨some [("A.png", 400), ("B.png", 400), ("C.png", 400)], 1200, true, none⟩
    = ⟨some [("B.png", 400)], 400, true, none⟩ := by
  decide

/-- C6 counterexample: max 1000, entries A (oldest) and B, tracked size
1200, and a delete that fails exactly on A.  The failing delete throws
out of the deletion loop into `trimCache`'s outer catch, so B — although
still over the target and deletable — is never evaluated: the state is
returned completely unchanged, refuting that the remaining entries are
still evaluated and deletable. -/
theorem trim_delete_failure_counterexample :
    trimCacheWith 1000
      ⟨false, (fun n => if n = "A.png" then 1 else 2),
        (fun u => u == IMAGE_CACHE_DIR ++ "A.png"), false⟩
      ⟨some [("A.png", 400), ("B.png", 400)], 1200, true, none⟩
    = ⟨some [("A.png", 400), ("B.png", 400)], 1200, true, none⟩ := by
  decide

/-- No entry whose delete fails is ever removed by the deletion loop:
the loop removes an entry only after a successful `deleteAsync` on its
path, and the first failing delete throws out of the loop. -/
theorem deleteLoop_keeps_failing (del : String → Bool) (M : Nat) :
    ∀ (infos : List CacheFileInfo) (c : Int) (files files2 : List DirEntry),
      (deleteLoop del M infos c files = .ok files2 ∨
        deleteLoop del M infos c files = .error files2) →
      ∀ p ∈ files, del (IMAGE_CACHE_DIR ++ p.1) = true → p ∈ files2
  | [], c, files, files2, h, p, hp, hdp => by
    rcases h with h | h
    · rw [show files2 = files from (Except.ok.injEq _ _).mp h.symm]; exact hp
    · exact absurd h (by simp [deleteLoop])
  | fi :: rest, c, files, files2, h, p, hp, hdp => by
    rw [deleteLoop] at h
    by_cases hc : 10 * c ≤ 7 * (M : Int)
    · rw [if_pos hc] at h
      rcases h with h | h
      · rw [show files2 = files from (Except.ok.injEq _ _).mp h.symm]; exact hp
      · simp at h
    · rw [if_neg hc] at h
      by_cases hd : del fi.uri = true
      · rw [if_pos hd] at h
        rcases h with h | h
        · simp at h
        · rw [show files2 = files from (Except.error.injEq _ _).mp h.symm]; exact hp
      · rw [if_neg hd] at h
        refine deleteLoop_keeps_failing del M rest (c - (fi.size : Int)) _ files2 h p ?_ hdp
        refine List.mem_filter.mpr ⟨hp, ?_⟩
        simp only [Bool.not_eq_eq_eq_not, Bool.not_true, beq_eq_false_iff_ne, ne_eq]
        intro hu
        exact hd (by rw [← hu]; exact hdp)

/-- C6 (amended): when a delete inside `trimCache`'s deletion pass
fails, the thrown error aborts the rest of the pass — it is caught only
by the outer catch — so `trimCache` returns normally with the directory
as the loop left it and the tracked `cacheSize` untouched (the final
resync is skipped), and every entry whose delete fails is still in the
store; the entries after the failing one are not evaluated. -/
theorem trim_abort_on_delete_failure (M : Nat) (tro : TrimOracle) (s : CacheState)
    (files files2 : List DirEntry)
    (hdir : s.dir = some files) (hrd : tro.readDirFails = false) (hne : files.length ≠ 0)
    (hloop : deleteLoop tro.del M (sortByModTime (files.map (mkFileInfo tro)))
      (s.cacheSize : Int) files = .error files2) :
    trimCacheWith M tro s = { s with dir := some files2 } ∧
    (trimCacheWith M tro s).cacheSize = s.cacheSize ∧
    ∀ p ∈ files, tro.del (IMAGE_CACHE_DIR ++ p.1) = true → p ∈ files2 := by
  have hbody : trimBody M tro s = .error { s with dir := some files2 } := by
    unfold trimBody
    rw [hrd, hdir]
    simp only [Bool.false_eq_true, if_false, hne, hloop]
  have hres : trimCacheWith M tro s = { s with dir := some files2 } := by
    unfold trimCacheWith
    rw [hbody]
  exact ⟨hres, by rw [hres],
    deleteLoop_keeps_failing tro.del M _ _ files files2 (Or.inr hloop)⟩

/-- C6 witness: at the concrete aborting scenario, trim returns the
unchanged state normally and the entry with the failing delete (A) is
still present. -/
theorem trim_abort_on_delete_failure_witness :
    trimCacheWith 1000
        ⟨false, (fun n => if n = "A.png" then 1 else 2),
          (fun u => u == IMAGE_CACHE_DIR ++ "B.png"), false⟩
        ⟨some [("A.png", 300), ("B.png", 900)], 1200, true, none⟩
      = { (⟨some [("A.png", 300), ("B.png", 900)], 1200, true, none⟩ : CacheState) with
          dir := some [("B.png", 900)] } ∧
    (trimCacheWith 1000
        ⟨false, (fun n => if n = "A.png" then 1 else 2),
          (fun u => u == IMAGE_CACHE_DIR ++ "B.png"), false⟩
        ⟨some [("A.png", 300), ("B.png", 900)], 1200, true, none⟩).cacheSize = 1200 ∧
    ∀ p ∈ [(("A.png" : String), 300), (("B.png" : String), 900)],
      (fun u => u == IMAGE_CACHE_DIR ++ "B.png") (IMAGE_CACHE_DIR ++ p.1) = true →
        p ∈ [(("B.png" : String), 900)] :=
  trim_abort_on_delete_failure 1000
    ⟨false, (fun n => if n = "A.png" then 1 else 2),
      (fun u => u == IMAGE_CACHE_DIR ++ "B.png"), false⟩
    ⟨some [("A.png", 300), ("B.png", 900)], 1200, true, none⟩
    [("A.png", 300), ("B.png", 900)] [("B.png", 900)]
    rfl rfl (by decide) rfl

/-- Appending the cache-directory path to a file name is injective. -/
theorem dirPath_injective : Function.Injective (fun t : String => IMAGE_CACHE_DIR ++ t) := by
  intro a b h
  have hd := congrArg String.data h
  simp [String.data_append] at hd
  exact String.ext hd

theorem prefixSizes_zero (l : List CacheFileInfo) : prefixSizes l 0 = 0 := rfl

theorem prefixSizes_cons_succ (fi : CacheFileInfo) (l : List CacheFileInfo) (j : Nat) :
    prefixSizes (fi :: l) (j + 1) = (fi.size : Int) + prefixSizes l j := by
  simp [prefixSizes, List.take_succ_cons]

theorem sumSizes_cast (l : List DirEntry) :
    (sumSizes l : Int) = (l.map (fun p => (p.2 : Int))).sum := by
  induction l with
  | nil => rfl
  | cons a t ih =>
    simp only [sumSizes, List.map_cons, List.sum_cons, Nat.cast_add] at ih ⊢
    omega

/-- Keyed permutations preserve the total size. -/
theorem perm_sum_sizes (l : List DirEntry) (m : List CacheFileInfo)
    (h : List.Perm (l.map entryKey) (m.map infoKey)) :
    (sumSizes l : Int) = sizesInt m := by
  have h2 := (h.map (fun q : String × Nat => (q.2 : Int))).sum_eq
  rw [List.map_map, List.map_map] at h2
  rw [sumSizes_cast, sizesInt]
  exact h2

theorem sizesInt_take_drop (l : List CacheFileInfo) (k : Nat) :
    prefixSizes l k + sizesInt (l.drop k) = sizesInt l := by
  rw [prefixSizes, sizesInt, sizesInt, ← List.sum_append, ← List.map_append,
    List.take_append_drop]

/-- One successful delete of the loop: when the uri of `fi` occurs among
the (pairwise-distinct) uris of `files`, the filter removes exactly the
entry at that uri — the remaining keys complement the permutation, the
uris stay distinct, and the removed size is recovered. -/
theorem delete_step (files : List DirEntry) (fi : CacheFileInfo) (rest : List CacheFileInfo)
    (hnd : (files.map (fun p => IMAGE_CACHE_DIR ++ p.1)).Nodup)
    (hperm : List.Perm (infoKey fi :: rest.map infoKey) (files.map entryKey)) :
    List.Perm (rest.map infoKey)
      ((files.filter (fun p => !(IMAGE_CACHE_DIR ++ p.1 == fi.uri))).map entryKey) ∧
    ((files.filter (fun p => !(IMAGE_CACHE_DIR ++ p.1 == fi.uri))).map
      (fun p => IMAGE_CACHE_DIR ++ p.1)).Nodup ∧
    sumSizes (files.filter (fun p => !(IMAGE_CACHE_DIR ++ p.1 == fi.uri))) + fi.size
      = sumSizes files := by
  have hmem : infoKey fi ∈ files.map entryKey := hperm.subset (List.mem_cons_self _ _)
  obtain ⟨p, hpmem, hpk⟩ := List.mem_map.mp hmem
  have huri : IMAGE_CACHE_DIR ++ p.1 = fi.uri := congrArg Prod.fst hpk
  have hsz : p.2 = fi.size := congrArg Prod.snd hpk
  have hndf : ((files.filter (fun q => !(IMAGE_CACHE_DIR ++ q.1 == fi.uri))).map
      (fun q => IMAGE_CACHE_DIR ++ q.1)).Nodup :=
    hnd.sublist ((List.filter_sublist files).map _)
  obtain ⟨l1, l2, rfl⟩ := List.append_of_mem hpmem
  have hnd2 := hnd
  rw [List.map_append, List.map_cons, List.nodup_append] at hnd2
  have hno1 : IMAGE_CACHE_DIR ++ p.1 ∉ l1.map (fun q => IMAGE_CACHE_DIR ++ q.1) :=
    fun hx => hnd2.2.2 hx (List.mem_cons_self _ _)
  have hno2 : IMAGE_CACHE_DIR ++ p.1 ∉ l2.map (fun q => IMAGE_CACHE_DIR ++ q.1) :=
    (List.nodup_cons.mp hnd2.2.1).1
  have hfl1 : l1.filter (fun q => !(IMAGE_CACHE_DIR ++ q.1 == fi.uri)) = l1 := by
    refine List.filter_eq_self.mpr ?_
    intro q hq
    have hne : ¬ (IMAGE_CACHE_DIR ++ q.1 = fi.uri) := by
      intro he
      rw [← huri] at he
      exact hno1 (he ▸ List.mem_map_of_mem _ hq)
    simp [hne]
  have hfl2 : l2.filter (fun q => !(IMAGE_CACHE_DIR ++ q.1 == fi.uri)) = l2 := by
    refine List.filter_eq_self.mpr ?_
    intro q hq
    have hne : ¬ (IMAGE_CACHE_DIR ++ q.1 = fi.uri) := by
      intro he
      rw [← huri] at he
      exact hno2 (he ▸ List.mem_map_of_mem _ hq)
    simp [hne]
  have hfilter : (l1 ++ p :: l2).filter (fun q => !(IMAGE_CACHE_DIR ++ q.1 == fi.uri))
      = l1 ++ l2 := by
    rw [List.filter_append, List.filter_cons, hfl1, hfl2]
    simp [huri]
  refine ⟨?_, hndf, ?_⟩
  · rw [hfilter]
    have h1 : List.Perm ((l1 ++ p :: l2).map entryKey)
        (entryKey p :: ((l1 ++ l2).map entryKey)) := by
      simp only [List.map_append, List.map_cons]
      exact List.perm_middle.trans (by simp)
    exact (hperm.trans (hpk ▸ h1)).cons_inv
  · rw [hfilter]
    simp only [sumSizes, List.map_append, List.sum_append, List.map_cons, List.sum_cons]
    omega

theorem deleteLoop_spec (del : String → Bool) (M : Nat) (hdel : ∀ u, del u = false) :
    ∀ (infos : List CacheFileInfo) (c : Int) (files : List DirEntry),
      List.Perm (infos.map infoKey) (files.map entryKey) →
      (files.map (fun p => IMAGE_CACHE_DIR ++ p.1)).Nodup →
      c = (sumSizes files : Int) →
      ∃ files2 k,
        deleteLoop del M infos c files = .ok files2 ∧
        k ≤ infos.length ∧
        List.Perm (files2.map entryKey) ((infos.drop k).map infoKey) ∧
        (∀ j < k, 7 * (M : Int) < 10 * (c - prefixSizes infos j)) ∧
        (10 * (c - prefixSizes infos k) ≤ 7 * (M : Int) ∨ k = infos.length)
  | [], c, files, hperm, hnd, hsum => by
    refine ⟨files, 0, rfl, Nat.le_refl 0, ?_, ?_, Or.inr rfl⟩
    · simpa using hperm.symm
    · intro j hj
      omega
  | fi :: rest, c, files, hperm, hnd, hsum => by
    by_cases hc : 10 * c ≤ 7 * (M : Int)
    · refine ⟨files, 0, ?_, Nat.zero_le _, ?_, ?_, Or.inl ?_⟩
      · rw [deleteLoop, if_pos hc]
      · simpa using hperm.symm
      · intro j hj
        omega
      · rw [prefixSizes_zero]
        omega
    · have hd : del fi.uri = false := hdel fi.uri
      have hperm' : List.Perm (infoKey fi :: rest.map infoKey) (files.map entryKey) := by
        simpa using hperm
      obtain ⟨hp1, hp2, hp3⟩ := delete_step files fi rest hnd hperm'
      have hsum' : c - (fi.size : Int)
          = (sumSizes (files.filter (fun p => !(IMAGE_CACHE_DIR ++ p.1 == fi.uri))) : Int) := by
        rw [hsum, ← hp3]
        push_cast
        ring
      obtain ⟨files2, k', hok, hk', hpm, hmin, hlast⟩ :=
        deleteLoop_spec del M hdel rest (c - (fi.size : Int))
          (files.filter (fun p => !(IMAGE_CACHE_DIR ++ p.1 == fi.uri))) hp1 hp2 hsum'
      refine ⟨files2, k' + 1, ?_, Nat.succ_le_succ hk', hpm, ?_, ?_⟩
      · rw [deleteLoop, if_neg hc, hd]
        simpa using hok
      · intro j hj
        cases j with
        | zero =>
          rw [prefixSizes_zero]
          omega
        | succ j' =>
          have := hmin j' (by omega)
          rw [prefixSizes_cons_succ]
          omega
      · rcases hlast with hl | hl
        · exact Or.inl (by rw [prefixSizes_cons_succ]; omega)
        · exact Or.inr (by simp [hl])

/-- `trimCache` under a present nonempty directory, no collaborator
failures and a successful deletion pass: the directory is what the loop
left and `cacheSize` is resynced to its total size. -/
theorem trim_noFail_result (M : Nat) (tro : TrimOracle) (s : CacheState)
    (files files2 : List DirEntry)
    (hdir : s.dir = some files) (hrd : tro.readDirFails = false)
    (hcs : tro.calcStatFails = false) (hne : ¬ files.length = 0)
    (hloop : deleteLoop tro.del M (sortByModTime (files.map (mkFileInfo tro)))
      (s.cacheSize : Int) files = .ok files2) :
    trimCacheWith M tro s = { s with dir := some files2, cacheSize := sumSizes files2 } := by
  unfold trimCacheWith trimBody
  rw [hrd, hdir]
  simp only [Bool.false_eq_true, if_false, if_neg hne, hloop, calculateCacheSize, calcBody, hcs]

/-- C1: from any consistent state (tracked size equal to the directory
total, directory names distinct), a `recordWrite` of `n` bytes that
pushes the tracked size above the max `M` triggers a trim that, absent
collaborator failures, leaves the tracked size equal to the new
directory total and at or below 70% of `M`; moreover the survivors are
exactly a suffix `drop k` of the sorted listing and each of the `k`
deletions happened while the running total still exceeded the target —
the pass stops as soon as the total is at or below the target. -/
theorem trim_threshold_minimal (M n : Nat) (tro : TrimOracle) (s : CacheState)
    (files : List DirEntry)
    (hdir : s.dir = some files)
    (hnd : (files.map Prod.fst).Nodup)
    (hsum : s.cacheSize + n = sumSizes files)
    (hover : M < s.cacheSize + n)
    (hrd : tro.readDirFails = false)
    (hdel : ∀ u, tro.del u = false)
    (hcs : tro.calcStatFails = false) :
    ∃ files2 k,
      (updateCacheSizeWith M tro n s).dir = some files2 ∧
      (updateCacheSizeWith M tro n s).cacheSize = sumSizes files2 ∧
      10 * sumSizes files2 ≤ 7 * M ∧
      k ≤ (sortByModTime (files.map (mkFileInfo tro))).length ∧
      List.Perm (files2.map entryKey)
        (((sortByModTime (files.map (mkFileInfo tro))).drop k).map infoKey) ∧
      ∀ j < k, 7 * (M : Int)
        < 10 * ((sumSizes files : Int)
            - prefixSizes (sortByModTime (files.map (mkFileInfo tro))) j) := by
  have hne : ¬ files.length = 0 := by
    intro h
    rw [List.length_eq_zero] at h
    subst h
    simp [sumSizes] at hsum
    omega
  have hndu : (files.map (fun p => IMAGE_CACHE_DIR ++ p.1)).Nodup := by
    have he : files.map (fun p => IMAGE_CACHE_DIR ++ p.1)
        = (files.map Prod.fst).map (fun t => IMAGE_CACHE_DIR ++ t) := by
      rw [List.map_map]
      rfl
    rw [he]
    exact hnd.map dirPath_injective
  have hperm : List.Perm ((sortByModTime (files.map (mkFileInfo tro))).map infoKey)
      (files.map entryKey) := by
    have h1 := List.perm_insertionSort
      (fun a b : CacheFileInfo => a.modificationTime ≤ b.modificationTime)
      (files.map (mkFileInfo tro))
    have h2 := h1.map infoKey
    rw [List.map_map] at h2
    exact h2
  have hctot : ((s.cacheSize + n : Nat) : Int) = (sumSizes files : Int) := by
    rw [hsum]
  obtain ⟨files2, k, hok, hk, hpm, hmin, hlast⟩ :=
    deleteLoop_spec tro.del M hdel (sortByModTime (files.map (mkFileInfo tro)))
      ((s.cacheSize + n : Nat) : Int) files hperm hndu hctot
  have hupd : updateCacheSizeWith M tro n s
      = { s with dir := some files2, cacheSize := sumSizes files2 } := by
    unfold updateCacheSizeWith
    rw [if_pos (by simpa using hover)]
    exact trim_noFail_result M tro { s with cacheSize := s.cacheSize + n } files files2
      hdir hrd hcs hne hok
  have htot : (sumSizes files : Int)
      = sizesInt (sortByModTime (files.map (mkFileInfo tro))) :=
    perm_sum_sizes files _ hperm.symm
  have hf2 : (sumSizes files2 : Int)
      = sizesInt ((sortByModTime (files.map (mkFileInfo tro))).drop k) :=
    perm_sum_sizes files2 _ hpm
  have hthr : 10 * sumSizes files2 ≤ 7 * M := by
    rcases hlast with hl | hl
    · have hdecomp := sizesInt_take_drop (sortByModTime (files.map (mkFileInfo tro))) k
      rw [hctot] at hl
      omega
    · have hdrop : (sortByModTime (files.map (mkFileInfo tro))).drop k = [] := by
        rw [List.drop_eq_nil_iff, hl]
      rw [hdrop] at hpm
      have hnil : files2.map entryKey = [] := hpm.eq_nil
      rw [List.map_eq_nil_iff] at hnil
      subst hnil
      simp [sumSizes]
  refine ⟨files2, k, ?_, ?_, hthr, hk, hpm, ?_⟩
  · rw [hupd]
  · rw [hupd]
  · intro j hj
    have := hmin j hj
    rw [hctot] at this
    exact this

/-- C1 witness: the scenario max 1000 with three 400-byte entries and a
prior tracked size 800: recording a 400-byte write pushes to 1200 and
the triggered trim leaves the store consistent at or below 700, having
deleted only entries while still above the target. -/
theorem trim_threshold_minimal_witness :
    ∃ files2 k,
      (updateCacheSizeWith 1000 ⟨false, fun _ => 0, fun _ => false, false⟩ 400
        ⟨some [("A.png", 400), ("B.png", 400), ("C.png", 400)], 800, true, none⟩).dir
        = some files2 ∧
      (updateCacheSizeWith 1000 ⟨false, fun _ => 0, fun _ => false, false⟩ 400
        ⟨some [("A.png", 400), ("B.png", 400), ("C.png", 400)], 800, true, none⟩).cacheSize
        = sumSizes files2 ∧
      10 * sumSizes files2 ≤ 7 * 1000 ∧
      k ≤ (sortByModTime ([("A.png", 400), ("B.png", 400), ("C.png", 400)].map
        (mkFileInfo ⟨false, fun _ => 0, fun _ => false, false⟩))).length ∧
      List.Perm (files2.map entryKey)
        (((sortByModTime ([("A.png", 400), ("B.png", 400), ("C.png", 400)].map
          (mkFileInfo ⟨false, fun _ => 0, fun _ => false, false⟩))).drop k).map infoKey) ∧
      ∀ j < k, 7 * ((1000 : Nat) : Int)
        < 10 * ((sumSizes [("A.png", 400), ("B.png", 400), ("C.png", 400)] : Int)
            - prefixSizes (sortByModTime ([("A.png", 400), ("B.png", 400), ("C.png", 400)].map
              (mkFileInfo ⟨false, fun _ => 0, fun _ => false, false⟩))) j) :=
  trim_threshold_minimal 1000 400 ⟨false, fun _ => 0, fun _ => false, false⟩
    ⟨some [("A.png", 400), ("B.png", 400), ("C.png", 400)], 800, true, none⟩
    [("A.png", 400), ("B.png", 400), ("C.png", 400)]
    rfl (by decide) (by decide) (by decide) rfl (fun u => rfl) rfl

end ImageCache
